import Mathlib

/-!
Shallow embedding of the Auth0-to-WorkOS user migration scripts
(`migrate_users` / `udpate_auth0_users` / duplicate-user resolution tool),
together with theorems checking the natural-language specification
against the code.

Conventions of the embedding:
* JavaScript nullable values (`undefined` / `null`) become `Option`.
* Exceptions become `Except Err`; the error classes distinguished by the
  code (`RateLimitExceededException` from the WorkOS SDK, `ManagementApiError`
  from the Auth0 SDK with its `statusCode`) become constructors of `Err`.
* Network calls against the identity services are resolved through an
  explicit environment record mapping each call to its result, so a run of
  a worker is a pure function of the environment and the input record.
* Each worker additionally returns the list of service calls it performed,
  so that statements such as "the create endpoint is never invoked on the
  update path" are directly expressible.
* Date strings are represented by their epoch value (the code only ever
  compares `new Date(s).getTime()`), and `logins_count` by `Option Nat`.
-/

namespace Migration

/-- Truthiness of a JavaScript optional string: `undefined` and the empty
string are falsy, every other string is truthy. -/
def truthyStr : Option String → Bool
  | none => false
  | some s => !(s == "")

/-- JavaScript `Number(x)` applied to the nullable result of `headers.get`:
`Number(null)` evaluates to `0`, a present numeric header evaluates to its
value. -/
def jsNumberOfHeader : Option Int → Int
  | none => 0
  | some v => v

/-- JavaScript nullish coalescing `x ?? d` where `x` is already a number:
a number is never `null` or `undefined` (even `NaN` is a number), so the
right operand is dead and the result is always `x`. -/
def nullishNum (x _d : Int) : Int := x

/-- Errors thrown by the identity-service SDKs, as the code distinguishes
them: `rateLimitExceeded` is the WorkOS `RateLimitExceededException`
(carrying the optional `retryAfter` hint), `managementApi` is the Auth0
`ManagementApiError` carrying its HTTP `statusCode`, and `other` is any
remaining failure. -/
inductive Err
  | rateLimitExceeded (retryAfter : Option Nat)
  | managementApi (statusCode : Nat)
  | other (msg : String)
deriving DecidableEq, Repr

/-- The check `error instanceof RateLimitExceededException` performed by the
WorkOS-facing workers. -/
def Err.isWorkOSRateLimit : Err → Bool
  | .rateLimitExceeded _ => true
  | _ => false

/-- The check `error instanceof ManagementApiError && error.statusCode === 429`
performed by the Auth0-facing worker. -/
def Err.isAuth0RateLimit : Err → Bool
  | .managementApi s => s == 429
  | _ => false

/-- A throttling signal from either identity service (spec taxonomy of
`RateLimitError`): either SDK rate-limit error counts. -/
def Err.isRateLimitSignal (e : Err) : Bool :=
  e.isWorkOSRateLimit || e.isAuth0RateLimit

/-! ### Retry-delay computation of the backoff handlers (claim C1)

`migrate_users` reads `error.retryAfter` (a nullable number) and computes
`(error.retryAfter ?? DEFAULT_RETRY_AFTER) + 1`.

`udpate_auth0_users` reads the `retry-after` response header and computes
`(Number(error.headers.get("retry-after")) ?? DEFAULT_RETRY_AFTER) + 1`:
`Number` is applied before `??`, so the fallback operand is unreachable. -/

/-- `DEFAULT_RETRY_AFTER` of the user-import script (`migrate_users`). -/
def DEFAULT_RETRY_AFTER_import : Nat := 60

/-- `DEFAULT_RETRY_AFTER` of the Auth0 metadata-update script. -/
def DEFAULT_RETRY_AFTER_update : Int := 10

/-- Pause delay computed by the rate-limit handler of `migrate_users`:
`(error.retryAfter ?? DEFAULT_RETRY_AFTER) + 1`. -/
def retryDelay_import (retryAfter : Option Nat) : Nat :=
  retryAfter.getD DEFAULT_RETRY_AFTER_import + 1

/-- Pause delay computed by the rate-limit handler of `udpate_auth0_users`:
`(Number(error.headers.get("retry-after")) ?? DEFAULT_RETRY_AFTER) + 1`. -/
def retryDelay_update (header : Option Int) : Int :=
  nullishNum (jsNumberOfHeader header) DEFAULT_RETRY_AFTER_update + 1

/-! ### Migration Worker (`migrate_users`: `updateUser`, `findOrCreateUser`,
`processLine`)

The worker calls four WorkOS endpoints; an environment record maps each
call (keyed by the argument the code passes) to its result. The trace of
calls performed is returned alongside the result.

In `findOrCreateUser` the update branch ends in `return updateUser(...)`
WITHOUT `await`: in an async function the rejection of a returned promise
is adopted by the caller and is NOT intercepted by the enclosing
`try`/`catch`, so a failure of that update call propagates out of
`findOrCreateUser` directly. The awaited calls (`getUser`, `createUser`)
are intercepted. The embedding mirrors this exactly. -/

/-- WorkOS user object; only the fields the scripts read are modelled
(`id` and `emailVerified`). -/
structure User where
  id : String
  emailVerified : Bool
deriving DecidableEq, Repr

/-- The `email_verified` field of an exported record has schema `z.any()`:
it may be absent, a boolean, or a string. -/
inductive EVField
  | missing
  | boolVal (b : Bool)
  | strVal (s : String)
deriving DecidableEq, Repr

/-- The test `email_verified === true || email_verified === "true"`. -/
def evTruthy : EVField → Bool
  | .boolVal true => true
  | .strVal s => s == "true"
  | _ => false

/-- An Auth0 exported user record (zod schema `Auth0ExportedUser`); only
the fields the worker consumes are modelled (`name`, `nickname`, `picture`,
`provider`, `created_at`, `updated_at` are parsed but never read). -/
structure Auth0ExportedUser where
  user_id : String
  email : String
  email_verified : EVField
  given_name : Option String
  family_name : Option String
  region : Option String
  workos_user_id : Option String
deriving DecidableEq, Repr

/-- One WorkOS service call performed by the worker, keyed by the argument
the code passes; the update call also records the merged verification flag
it sends. -/
inductive Call
  | getUser (userId : String)
  | createUser (email : String)
  | listUsers (email : String)
  | update (userId : String) (emailVerified : Bool)
deriving DecidableEq, Repr

/-- Environment resolving each WorkOS call: `getUserRes` keyed by user id,
`createUserRes` keyed by the email sent, `listUsersRes` keyed by the
lowercased email filter, `updateUserRes` keyed by the updated user id. -/
structure WorkOSEnv where
  getUserRes : String → Except Err User
  createUserRes : String → Except Err User
  listUsersRes : String → Except Err (List User)
  updateUserRes : String → Except Err Unit

/-- Verification flag sent by `updateUser`:
`existingUser.emailVerified || email_verified === true || email_verified === "true"`. -/
def mergedEmailVerified (exportedUser : Auth0ExportedUser) (existingUser : User) : Bool :=
  existingUser.emailVerified || evTruthy exportedUser.email_verified

/-- Result shape of `findOrCreateUser`: `{ workOsUser, created }`, with
`workOsUser` absent on the soft-failure path. -/
structure FindResult where
  workOsUser : Option User
  created : Bool
deriving DecidableEq, Repr

/-- The `updateUser` helper: one `workos.userManagement.updateUser` call on
the existing user, then `{ workOsUser: existingUser, created: false }`; a
failure of the call propagates. -/
def updateUser (env : WorkOSEnv) (exportedUser : Auth0ExportedUser)
    (existingUser : User) : Except Err FindResult × List Call :=
  match env.updateUserRes existingUser.id with
  | .error e =>
      (.error e, [.update existingUser.id (mergedEmailVerified exportedUser existingUser)])
  | .ok _ =>
      (.ok ⟨some existingUser, false⟩,
        [.update existingUser.id (mergedEmailVerified exportedUser existingUser)])

/-- The `catch` block of `findOrCreateUser`: rethrow a WorkOS rate-limit
error; otherwise search by lowercased email — exactly one match is updated
(a failure of that update propagates, the `return` leaves the `catch`),
zero or several matches log and yield `{ workOsUser: undefined, created: false }`. -/
def findOrCreateCatch (env : WorkOSEnv) (exportedUser : Auth0ExportedUser)
    (e : Err) : Except Err FindResult × List Call :=
  if e.isWorkOSRateLimit then (.error e, [])
  else
    match env.listUsersRes exportedUser.email.toLower with
    | .error e2 => (.error e2, [.listUsers exportedUser.email.toLower])
    | .ok matching =>
        match matching with
        | [existingUser] =>
            let (r, t) := updateUser env exportedUser existingUser
            (r, .listUsers exportedUser.email.toLower :: t)
        | _ => (.ok ⟨none, false⟩, [.listUsers exportedUser.email.toLower])

/-- The `findOrCreateUser` worker. A truthy `workos_user_id` selects the
fetch-and-update branch; the awaited `getUser` / `createUser` failures are
routed through the `catch` block, while the not-awaited
`return updateUser(...)` lets update failures bypass it. -/
def findOrCreateUser (env : WorkOSEnv) (exportedUser : Auth0ExportedUser) :
    Except Err FindResult × List Call :=
  if truthyStr exportedUser.workos_user_id then
    let uid := exportedUser.workos_user_id.getD ""
    match env.getUserRes uid with
    | .error e =>
        let (r, t) := findOrCreateCatch env exportedUser e
        (r, .getUser uid :: t)
    | .ok user =>
        let (r, t) := updateUser env exportedUser user
        (r, .getUser uid :: t)
  else
    match env.createUserRes exportedUser.email with
    | .error e =>
        let (r, t) := findOrCreateCatch env exportedUser e
        (r, .createUser exportedUser.email :: t)
    | .ok user => (.ok ⟨some user, true⟩, [.createUser exportedUser.email])

/-- One line of the append-only result ledger `migration-results.jsonl`. -/
structure LedgerLine where
  workos_user_id : String
  auth0_user_id : String
  created : Bool
deriving DecidableEq, Repr

/-- The `processLine` of `migrate_users`: a zod parse failure is caught,
logged and yields `false`; a missing `workOsUser` (soft failure) is logged
and yields `false`; otherwise one ledger line is appended and the result is
`true`. Errors of `findOrCreateUser` are not caught here. The returned pair
carries the boolean outcome and the ledger line written, if any. -/
def processLine_import (env : WorkOSEnv)
    (parsed : Except String Auth0ExportedUser) :
    Except Err (Bool × Option LedgerLine) :=
  match parsed with
  | .error _ => .ok (false, none)
  | .ok exportedUser =>
      match (findOrCreateUser env exportedUser).1 with
      | .error e => .error e
      | .ok r =>
          match r.workOsUser with
          | none => .ok (false, none)
          | some workOsUser =>
              .ok (true, some ⟨workOsUser.id, exportedUser.user_id, r.created⟩)

/-! ### Auth0 metadata-update worker (`udpate_auth0_users`: first script)

`processLine` reads one ledger line and issues one `auth0.users.update`
setting `app_metadata.workos_user_id`; its `catch` rethrows a 429
`ManagementApiError` and absorbs everything else as a logged `false`. -/

/-- Environment of the metadata-update worker: the result of
`auth0.users.update` keyed by the Auth0 user id. -/
structure Auth0UpdateEnv where
  updateRes : String → Except Err Unit

/-- The `processLine` of the metadata-update script. -/
def processLine_update (env : Auth0UpdateEnv) (line : LedgerLine) :
    Except Err Bool :=
  match env.updateRes line.auth0_user_id with
  | .ok _ => .ok true
  | .error e => if e.isAuth0RateLimit then .error e else .ok false

/-! ### Password-import worker (`udpate_auth0_users`: second script,
`updateUserPassword` / `processLine`)

`updateUserPassword` searches WorkOS by lowercased email; a single match
gets its password hash set via `workos.userManagement.updateUser`, then an
`auth0.users.update` stamps `password_imported_to_workos` — that last call
sits in an inner `try`/`catch` whose handler only logs, so ALL of its
failures (a 429 included) are swallowed. The outer `catch` rethrows a
WorkOS rate-limit error and swallows anything else, making the function
resolve with `undefined`. -/

/-- A record of the Auth0 password export (zod schema of the second
script); only the consumed fields are modelled (`tenant`, `connection`,
`version`, `identifiers` are parsed but never read). -/
structure PasswordExportedUser where
  _id : String
  email : String
  passwordHash : String
deriving DecidableEq, Repr

/-- Environment of the password-import worker: WorkOS `listUsers` keyed by
the lowercased email, WorkOS `updateUser` (returning the updated user)
keyed by the user id, and `auth0.users.update` keyed by the
`auth0|<_id>` identifier. -/
structure PasswordEnv where
  listUsersRes : String → Except Err (List User)
  updateWorkOSRes : String → Except Err User
  auth0UpdateRes : String → Except Err Unit

/-- The `updateUserPassword` worker. `.ok none` is the `undefined`
result (no single match, or a swallowed non-rate-limit failure). -/
def updateUserPassword (env : PasswordEnv) (exportedUser : PasswordExportedUser) :
    Except Err (Option User) :=
  let userId := "auth0|" ++ exportedUser._id
  match env.listUsersRes exportedUser.email.toLower with
  | .error e => if e.isWorkOSRateLimit then .error e else .ok none
  | .ok matching =>
      match matching with
      | [m] =>
          match env.updateWorkOSRes m.id with
          | .error e => if e.isWorkOSRateLimit then .error e else .ok none
          | .ok workOsUser =>
              match env.auth0UpdateRes userId with
              | .ok _ => .ok (some workOsUser)
              | .error _ => .ok (some workOsUser)
      | _ => .ok none

/-- The `processLine` of the password-import script: parse (errors here
propagate — unlike the importer this parse is not wrapped), call
`updateUserPassword`, report `false` on `undefined` and `true` otherwise. -/
def processLine_password (env : PasswordEnv)
    (exportedUser : PasswordExportedUser) : Except Err Bool :=
  match updateUserPassword env exportedUser with
  | .error e => .error e
  | .ok none => .ok false
  | .ok (some _) => .ok true

/-! ### Duplicate Resolution Engine (`solve_duplicate_users`:
`getAuth0UsersByEmail`, `processDuplicateUsers`, `processEmailGroup`, `main`)

`processDuplicateUsers` builds a `Map` from Auth0 `user_id` to the fetched
user (a `forEach`/`set` loop — a later entry overwrites an earlier one with
the same id), filters the candidates to those whose `auth0Sub` is truthy
and present in the map, and decides by survivor count. The ≥2 case sorts
the survivors with `Array.prototype.sort` under a comparator; the sort is
modelled as a stable insertion sort: an element is inserted before the
first element it compares `≤ 0` against, which preserves input order among
elements the comparator ties. -/

/-- A row of the duplicate-users CSV; only the fields the tool reads are
kept (the remaining profile columns are carried along unread). -/
structure DuplicateUser where
  username : String
  email : String
  sId : String
  dbId : String
  auth0Sub : Option String
  isDustSuperUser : Bool
deriving DecidableEq, Repr

/-- An Auth0 user as fetched by `getAuth0UsersByEmail`. `last_login` is a
date string in the source and only ever consumed through
`new Date(s).getTime()`, so it is modelled by that epoch value. -/
structure Auth0User where
  user_id : String
  email : String
  last_login : Option Nat
  logins_count : Option Nat
deriving DecidableEq, Repr

instance : Inhabited Auth0User := ⟨⟨"", "", none, none⟩⟩

/-- The `auth0UserMap` built by `forEach`/`set` and read by `get`: the
last user in the list with the given `user_id` wins. -/
def mapGet (auth0Users : List Auth0User) (key : String) : Option Auth0User :=
  auth0Users.foldl (fun acc u => if u.user_id == key then some u else acc) none

/-- The survivors filter:
`duplicates.filter(user => user.auth0Sub && auth0UserMap.has(user.auth0Sub))`. -/
def existingUsers (duplicates : List DuplicateUser) (auth0Users : List Auth0User) :
    List DuplicateUser :=
  duplicates.filter fun user =>
    truthyStr user.auth0Sub && (mapGet auth0Users (user.auth0Sub.getD "")).isSome

/-- The `logins_count || 0` coercion (absent and zero both give 0). -/
def loginsOrZero (u : Auth0User) : Nat := u.logins_count.getD 0

/-- The sort comparator of the ≥2-survivors case, on
`{ user, auth0Data }` pairs: descending `logins_count || 0` first; on a
tie, descending `last_login` time when BOTH sides carry one, and `0`
(leave relative order to the sort) otherwise. -/
def cmpSurvivors (a b : DuplicateUser × Auth0User) : Int :=
  let loginDiff : Int := (loginsOrZero b.2 : Int) - (loginsOrZero a.2 : Int)
  if loginDiff ≠ 0 then loginDiff
  else
    match a.2.last_login, b.2.last_login with
    | some ta, some tb => (tb : Int) - (ta : Int)
    | _, _ => 0

/-- Stable insertion: `x` goes before the first element it compares
`≤ 0` against. -/
def insertCmp (cmp : α → α → Int) (x : α) : List α → List α
  | [] => [x]
  | y :: ys => if cmp x y ≤ 0 then x :: y :: ys else y :: insertCmp cmp x ys

/-- Stable sort by a JavaScript-style comparator (model of
`Array.prototype.sort`, which ECMAScript requires to be stable). -/
def sortCmp (cmp : α → α → Int) : List α → List α
  | [] => []
  | x :: xs => insertCmp cmp x (sortCmp cmp xs)

/-- The three decision actions. -/
inductive RAction
  | keep
  | skip
  | manual_review
deriving DecidableEq, Repr

/-- Return shape of `processDuplicateUsers`; `requiresManualReview` is an
optional field, set (to `true`) only in the manual-review case. -/
structure Resolution where
  userToKeep : Option DuplicateUser
  auth0User : Option Auth0User
  action : RAction
  reason : String
  requiresManualReview : Option Bool
deriving DecidableEq, Repr

/-- The pairing `{ user, auth0Data: auth0UserMap.get(user.auth0Sub!)! }` of
the ≥2 case; the non-null assertion is modelled by a default that the
survivors filter makes unreachable. -/
def survivorData (auth0Users : List Auth0User) (user : DuplicateUser) :
    DuplicateUser × Auth0User :=
  (user, (mapGet auth0Users (user.auth0Sub.getD "")).getD default)

/-- The `processDuplicateUsers` decision procedure. -/
def processDuplicateUsers (duplicates : List DuplicateUser)
    (auth0Users : List Auth0User) : Resolution :=
  let es := existingUsers duplicates auth0Users
  match es with
  | [] =>
      { userToKeep := none, auth0User := none, action := .skip,
        reason := "All users deleted from Auth0", requiresManualReview := none }
  | [user] =>
      { userToKeep := some user,
        auth0User := mapGet auth0Users (user.auth0Sub.getD ""),
        action := .keep, reason := "Single user exists in Auth0",
        requiresManualReview := none }
  | _ =>
      let sortedUsers := sortCmp cmpSurvivors (es.map (survivorData auth0Users))
      { userToKeep := (sortedUsers.head?).map Prod.fst,
        auth0User := (sortedUsers.head?).map Prod.snd,
        action := .manual_review,
        reason := toString es.length ++ " users exist in Auth0 - manual review required",
        requiresManualReview := some true }

/-- The result of `getAuth0UsersByEmail` given the outcome of the
underlying `auth0.users.getAll` query: any error is caught, logged, and
turned into the empty list. -/
def getAuth0UsersByEmail (query : Except Err (List Auth0User)) : List Auth0User :=
  match query with
  | .error _ => []
  | .ok users => users

/-- Full per-group result (`ProcessingResult`): the group key, its
candidates, the fetched Auth0 users, and the resolution fields. -/
structure ProcessingResult where
  email : String
  duplicates : List DuplicateUser
  auth0Users : List Auth0User
  userToKeep : Option DuplicateUser
  auth0User : Option Auth0User
  action : RAction
  reason : String
  requiresManualReview : Option Bool
deriving DecidableEq, Repr

/-- The `processEmailGroup` step, parametrised by the outcome of the
Auth0 query for the group's email. -/
def processEmailGroup (query : Except Err (List Auth0User)) (email : String)
    (duplicates : List DuplicateUser) : ProcessingResult :=
  let auth0Users := getAuth0UsersByEmail query
  let r := processDuplicateUsers duplicates auth0Users
  { email := email, duplicates := duplicates, auth0Users := auth0Users,
    userToKeep := r.userToKeep, auth0User := r.auth0User, action := r.action,
    reason := r.reason, requiresManualReview := r.requiresManualReview }

/-- The three output sinks of `main` (`users_to_keep.jsonl`,
`manual_review.jsonl`, `skipped_users.jsonl`), each an append-only list of
written results. -/
structure OutputSinks where
  keepOut : List ProcessingResult
  manualOut : List ProcessingResult
  skipOut : List ProcessingResult
deriving DecidableEq, Repr

/-- The routing step of `main`: the target file is chosen by `action`
alone (`keep`, else `manual_review`, else skip), and the result is
appended to exactly that sink. -/
def writeResult (sinks : OutputSinks) (r : ProcessingResult) : OutputSinks :=
  if r.action = .keep then { sinks with keepOut := sinks.keepOut ++ [r] }
  else if r.action = .manual_review then
    { sinks with manualOut := sinks.manualOut ++ [r] }
  else { sinks with skipOut := sinks.skipOut ++ [r] }

/-- The write loop of `main` over the per-group results, starting from
empty sinks. -/
def writeAllResults (results : List ProcessingResult) : OutputSinks :=
  results.foldl writeResult ⟨[], [], []⟩

/-! ### Bounded Concurrency Dispatcher (claim C8)

Modelled from the spec: the dispatcher itself is the `p-queue` library
(`new Queue({ concurrency: N })` with `add`, `onSizeLessThan`, `pause`,
`start`, `onIdle`), whose implementation is not part of this repository;
the model follows the contract of spec §4.2 — state `activeCount ≥ 0`,
fixed `capacity`, `paused` flag; `submit` enqueues a task; a queued task
is dispatched only when not paused and `activeCount < capacity`,
incrementing `activeCount`; completion decrements it; `pause`/`resume`
toggle dispatch of new tasks only. Any number of submissions is allowed,
covering every record count M ≥ 0. -/

/-- Dispatcher state: in-flight count, queued count, paused flag. -/
structure DispatcherState where
  active : Nat
  queued : Nat
  paused : Bool
deriving DecidableEq, Repr

/-- One dispatcher transition under a fixed capacity. -/
inductive DispatcherStep (capacity : Nat) : DispatcherState → DispatcherState → Prop
  | submit (s : DispatcherState) :
      DispatcherStep capacity s { s with queued := s.queued + 1 }
  | dispatch (s : DispatcherState) (hp : s.paused = false) (hq : 0 < s.queued)
      (hc : s.active < capacity) :
      DispatcherStep capacity s
        { active := s.active + 1, queued := s.queued - 1, paused := s.paused }
  | complete (s : DispatcherState) (ha : 0 < s.active) :
      DispatcherStep capacity s { s with active := s.active - 1 }
  | pause (s : DispatcherState) :
      DispatcherStep capacity s { s with paused := true }
  | resume (s : DispatcherState) :
      DispatcherStep capacity s { s with paused := false }

/-- Initial dispatcher state: idle, nothing queued, not paused. -/
def initDispatcher : DispatcherState := ⟨0, 0, false⟩

/-- States reachable from the initial state by dispatcher transitions. -/
def DispatcherReachable (capacity : Nat) (s : DispatcherState) : Prop :=
  Relation.ReflTransGen (DispatcherStep capacity) initDispatcher s

/-! ### Concrete fixtures used by witnesses and counterexamples -/

/-- Two duplicate candidates sharing an email, both still present in
Auth0. -/
def dupA2 : DuplicateUser := ⟨"alice", "a@x.com", "sA", "1", some "auth0|aaa", false⟩

/-- Second candidate of the pair. -/
def dupB2 : DuplicateUser := ⟨"alfred", "a@x.com", "sB", "2", some "auth0|bbb", false⟩

/-- Auth0 record of `dupA2`: five logins, NO last-login timestamp. -/
def authA2 : Auth0User := ⟨"auth0|aaa", "a@x.com", none, some 5⟩

/-- Auth0 record of `dupB2`: five logins, a last-login timestamp. -/
def authB2 : Auth0User := ⟨"auth0|bbb", "a@x.com", some 100, some 5⟩

/-- A candidate with no surviving Auth0 account. -/
def dupGone : DuplicateUser := ⟨"carol", "c@x.com", "sC", "3", some "auth0|ccc", false⟩

/-- A lone surviving candidate. -/
def dupSolo : DuplicateUser := ⟨"dave", "d@x.com", "sD", "4", some "auth0|ddd", false⟩

/-- Auth0 record of `dupSolo`. -/
def authSolo : Auth0User := ⟨"auth0|ddd", "d@x.com", some 7, some 2⟩

/-- A `keep` decision used by the routing witness. -/
def resultKeepW : ProcessingResult :=
  ⟨"d@x.com", [dupSolo], [authSolo], some dupSolo, some authSolo, .keep,
    "Single user exists in Auth0", none⟩

/-- A `skip` decision used by the routing witness. -/
def resultSkipW : ProcessingResult :=
  ⟨"c@x.com", [dupGone], [], none, none, .skip, "All users deleted from Auth0", none⟩

/-- WorkOS environment for the update-branch witness: every call
succeeds. -/
def envC4 : WorkOSEnv :=
  { getUserRes := fun _ => .ok ⟨"user_w1", true⟩,
    createUserRes := fun _ => .ok ⟨"user_w2", false⟩,
    listUsersRes := fun _ => .ok [],
    updateUserRes := fun _ => .ok () }

/-- An exported record that already carries a WorkOS user id. -/
def userC4 : Auth0ExportedUser :=
  ⟨"auth0|u4", "U4@x.com", .boolVal true, some "Una", none, some "us", some "user_w1"⟩

/-- WorkOS environment for the create-fallback witness: creation fails
with a non-rate-limit error, the email search finds exactly one user, the
fallback update succeeds. -/
def envC5 : WorkOSEnv :=
  { getUserRes := fun _ => .error (.other "unused"),
    createUserRes := fun _ => .error (.other "email exists"),
    listUsersRes := fun _ => .ok [⟨"user_w5", true⟩],
    updateUserRes := fun _ => .ok () }

/-- An exported record with no WorkOS user id. -/
def userC5 : Auth0ExportedUser :=
  ⟨"auth0|u5", "U5@x.com", .missing, none, none, none, none⟩

/-- Password-worker environment of the C6 counterexample: one WorkOS
match, the password update succeeds, and the final Auth0 metadata call
fails with a 429 rate limit. -/
def envC6p : PasswordEnv :=
  { listUsersRes := fun _ => .ok [⟨"user_w9", true⟩],
    updateWorkOSRes := fun _ => .ok ⟨"user_w9", true⟩,
    auth0UpdateRes := fun _ => .error (.managementApi 429) }

/-- Password-export record of the C6 counterexample. -/
def userC6p : PasswordExportedUser := ⟨"abc123", "p@x.com", "bcrypthash"⟩

/-- Metadata-update environment of the C6 witness: the Auth0 update fails
with a 429. -/
def envC6u : Auth0UpdateEnv := ⟨fun _ => .error (.managementApi 429)⟩

/-- Ledger line of the C6 witness. -/
def lineC6 : LedgerLine := ⟨"user_w6", "auth0|u6", true⟩

/-- WorkOS environment of the C10 counterexample: the fetch succeeds, the
update of the fetched user fails with a non-rate-limit error, and the
email search would have found exactly one updatable user. -/
def envC10 : WorkOSEnv :=
  { getUserRes := fun _ => .ok ⟨"user_w1", false⟩,
    createUserRes := fun _ => .ok ⟨"user_w2", false⟩,
    listUsersRes := fun _ => .ok [⟨"user_w3", true⟩],
    updateUserRes := fun i => if i == "user_w1" then .error (.other "boom") else .ok () }

/-- Exported record of the C10 counterexample: carries a WorkOS user id. -/
def userC10 : Auth0ExportedUser :=
  ⟨"auth0|u10", "c@x.com", .missing, none, none, none, some "user_w1"⟩

/-- WorkOS environment of the C10 witness: the fetch itself fails with a
non-rate-limit error and the email-search fallback finds one user. -/
def envC10w : WorkOSEnv :=
  { getUserRes := fun _ => .error (.other "gone"),
    createUserRes := fun _ => .ok ⟨"user_w2", false⟩,
    listUsersRes := fun _ => .ok [⟨"user_w3", true⟩],
    updateUserRes := fun _ => .ok () }

/-! ## Theorems -/

/-- Helper: one dispatcher transition preserves the capacity bound on the
in-flight count. -/
theorem dispatcherStep_active_le {capacity : Nat} {s t : DispatcherState}
    (h : DispatcherStep capacity s t) (hs : s.active ≤ capacity) :
    t.active ≤ capacity := by
  cases h <;> simp_all <;> omega

/-- C8: for every concurrency cap N ≥ 1, every dispatcher state reachable
from the idle initial state keeps the number of in-flight tasks
(`activeCount`) at or below N, whatever sequence of submissions,
dispatches, completions, pauses and resumes occurred. -/
theorem claim_C8 (N : Nat) (s : DispatcherState) (_hN : 1 ≤ N)
    (hs : DispatcherReachable N s) : s.active ≤ N := by
  unfold DispatcherReachable at hs
  induction hs with
  | refl => simp [initDispatcher]
  | tail _ step ih => exact dispatcherStep_active_le step ih

/-- Witness for C8: with capacity 1, the state reached by submitting one
task and dispatching it is within the bound. -/
theorem claim_C8_witness :
    1 ≤ 1 ∧ (⟨1, 0, false⟩ : DispatcherState).active ≤ 1 :=
  ⟨Nat.le_refl 1,
    claim_C8 1 ⟨1, 0, false⟩ (Nat.le_refl 1)
      (Relation.ReflTransGen.tail
        (Relation.ReflTransGen.tail Relation.ReflTransGen.refl
          (DispatcherStep.submit initDispatcher))
        (DispatcherStep.dispatch ⟨0, 1, false⟩ rfl (Nat.zero_lt_one) (Nat.zero_lt_one)))⟩

/-- C1: in the metadata-update script, an absent `retry-after` header gives
a pause delay of `Number(null) + 1 = 1` second — NOT the documented
`DEFAULT_RETRY_AFTER + 1 = 11`, because `Number(...)` is applied before
`??` and never yields a nullish value; a present numeric header gives
`value + 1`. In the user-import script `error.retryAfter ?? DEFAULT` works
as specified: absent gives `60 + 1`, present gives `value + 1`. -/
theorem claim_C1 :
    retryDelay_update none = 1 ∧
    retryDelay_update none ≠ DEFAULT_RETRY_AFTER_update + 1 ∧
    (∀ v : Int, retryDelay_update (some v) = v + 1) ∧
    retryDelay_import none = DEFAULT_RETRY_AFTER_import + 1 ∧
    (∀ n : Nat, retryDelay_import (some n) = n + 1) :=
  ⟨rfl, by decide, fun _ => rfl, rfl, fun _ => rfl⟩

/-- Helper: with no fetched Auth0 users, no candidate survives the
filter. -/
theorem existingUsers_nil (duplicates : List DuplicateUser) :
    existingUsers duplicates [] = [] := by
  simp [existingUsers, mapGet]

/-- C9: a failed authoritative re-query is caught inside
`getAuth0UsersByEmail` and becomes the empty user list, so the group is
classified `skip` with the all-deleted reason, and the whole output record
is identical to the one produced when the query genuinely returns no
accounts. -/
theorem claim_C9 (e : Err) (email : String) (duplicates : List DuplicateUser) :
    processEmailGroup (.error e) email duplicates =
      processEmailGroup (.ok []) email duplicates ∧
    (processEmailGroup (.error e) email duplicates).action = .skip ∧
    (processEmailGroup (.error e) email duplicates).reason =
      "All users deleted from Auth0" := by
  refine ⟨rfl, ?_, ?_⟩ <;>
    simp [processEmailGroup, getAuth0UsersByEmail, processDuplicateUsers,
      existingUsers_nil]

/-- Helper: the write loop, from arbitrary sink contents, appends to each
sink exactly the results whose `action` selects it. -/
theorem foldl_writeResult (rs : List ProcessingResult) (acc : OutputSinks) :
    (rs.foldl writeResult acc).keepOut
        = acc.keepOut ++ rs.filter (fun r => r.action == RAction.keep) ∧
    (rs.foldl writeResult acc).manualOut
        = acc.manualOut ++ rs.filter (fun r => r.action == RAction.manual_review) ∧
    (rs.foldl writeResult acc).skipOut
        = acc.skipOut ++ rs.filter (fun r => r.action == RAction.skip) := by
  induction rs generalizing acc with
  | nil => simp
  | cons r rs ih =>
    obtain ⟨ihk, ihm, ihs⟩ := ih (writeResult acc r)
    cases h : r.action <;>
      simp_all [writeResult, List.filter_cons, List.append_assoc]

/-- Helper: the three action filters split a result list without loss or
duplication. -/
theorem filter_actions_length (rs : List ProcessingResult) :
    (rs.filter (fun r => r.action == RAction.keep)).length +
    (rs.filter (fun r => r.action == RAction.manual_review)).length +
    (rs.filter (fun r => r.action == RAction.skip)).length = rs.length := by
  induction rs with
  | nil => simp
  | cons r rs ih => cases h : r.action <;> simp [List.filter_cons, h] <;> omega

/-- C3: the three output sinks partition the decisions — their sizes sum
to the number of email groups, and a group's decision lands in a sink iff
its `action` field selects that sink, so each decision is written to
exactly one destination and every group is covered. -/
theorem claim_C3 (results : List ProcessingResult) :
    ((writeAllResults results).keepOut.length
      + (writeAllResults results).manualOut.length
      + (writeAllResults results).skipOut.length = results.length) ∧
    (∀ r ∈ results,
      (r ∈ (writeAllResults results).keepOut ↔ r.action = .keep) ∧
      (r ∈ (writeAllResults results).manualOut ↔ r.action = .manual_review) ∧
      (r ∈ (writeAllResults results).skipOut ↔ r.action = .skip)) := by
  obtain ⟨hk, hm, hs⟩ := foldl_writeResult results ⟨[], [], []⟩
  unfold writeAllResults
  constructor
  · rw [hk, hm, hs]
    simpa using filter_actions_length results
  · intro r hr
    rw [hk, hm, hs]
    simp [List.mem_filter, hr]

/-- Witness for C3: a two-group run (one `keep`, one `skip`) fills the
sinks to total size two, and the `keep` decision sits in the keep sink. -/
theorem claim_C3_witness :
    ((writeAllResults [resultKeepW, resultSkipW]).keepOut.length
      + (writeAllResults [resultKeepW, resultSkipW]).manualOut.length
      + (writeAllResults [resultKeepW, resultSkipW]).skipOut.length = 2) ∧
    (resultKeepW ∈ (writeAllResults [resultKeepW, resultSkipW]).keepOut ↔
      resultKeepW.action = .keep) :=
  ⟨(claim_C3 [resultKeepW, resultSkipW]).1,
    ((claim_C3 [resultKeepW, resultSkipW]).2 resultKeepW (by simp)).1⟩

/-- Helper: the `updateUser` helper never emits a create call and every
successful result it produces carries `created = false`. -/
theorem updateUser_no_create (env : WorkOSEnv) (xu : Auth0ExportedUser)
    (w : User) :
    (∀ c ∈ (updateUser env xu w).2, ∀ email, c ≠ Call.createUser email) ∧
    (∀ r, (updateUser env xu w).1 = .ok r → r.created = false) := by
  unfold updateUser
  cases env.updateUserRes w.id <;> simp

/-- Helper: the `catch` block of `findOrCreateUser` never emits a create
call and every successful result it produces carries `created = false`. -/
theorem findOrCreateCatch_no_create (env : WorkOSEnv) (xu : Auth0ExportedUser)
    (e : Err) :
    (∀ c ∈ (findOrCreateCatch env xu e).2, ∀ email, c ≠ Call.createUser email) ∧
    (∀ r, (findOrCreateCatch env xu e).1 = .ok r → r.created = false) := by
  unfold findOrCreateCatch
  split
  · simp
  · cases hl : env.listUsersRes xu.email.toLower with
    | error e2 => simp
    | ok matching =>
      match matching with
      | [] => simp
      | [w] =>
        obtain ⟨h1, h2⟩ := updateUser_no_create env xu w
        rcases hp : updateUser env xu w with ⟨r0, t0⟩
        rw [hp] at h1 h2
        simp_all
      | a :: b :: t => simp

/-- C4: a record with a truthy `workos_user_id` makes the worker start
with the fetch of that WorkOS user, never call the create endpoint in any
environment, and return `created = false` whenever it returns at all. -/
theorem claim_C4 (env : WorkOSEnv) (u : Auth0ExportedUser)
    (h : truthyStr u.workos_user_id = true) :
    (findOrCreateUser env u).2.head? =
      some (.getUser (u.workos_user_id.getD "")) ∧
    (∀ c ∈ (findOrCreateUser env u).2, ∀ email, c ≠ Call.createUser email) ∧
    (∀ r, (findOrCreateUser env u).1 = .ok r → r.created = false) := by
  unfold findOrCreateUser
  rw [h]
  simp only [if_true]
  cases hg : env.getUserRes (u.workos_user_id.getD "") with
  | error e =>
    obtain ⟨h1, h2⟩ := findOrCreateCatch_no_create env u e
    rcases hp : findOrCreateCatch env u e with ⟨r0, t0⟩
    rw [hp] at h1 h2
    simp_all
  | ok w =>
    obtain ⟨h1, h2⟩ := updateUser_no_create env u w
    rcases hp : updateUser env u w with ⟨r0, t0⟩
    rw [hp] at h1 h2
    simp_all

/-- Witness for C4: a record carrying `workos_user_id = "user_w1"` in an
all-succeeding environment starts with the fetch of that user. -/
theorem claim_C4_witness :
    truthyStr userC4.workos_user_id = true ∧
    (findOrCreateUser envC4 userC4).2.head? =
      some (.getUser (userC4.workos_user_id.getD "")) :=
  ⟨by decide, (claim_C4 envC4 userC4 (by decide)).1⟩

/-- C5: when a record has no target id and creation fails with a
non-rate-limit error, the worker searches WorkOS by the lowercased email;
one match is updated with `created = false`, while zero or several matches
produce the soft `{ workOsUser: undefined, created: false }` outcome and
`processLine` reports `false` without raising. -/
theorem claim_C5 (env : WorkOSEnv) (u : Auth0ExportedUser) (e : Err)
    (h : truthyStr u.workos_user_id = false)
    (hc : env.createUserRes u.email = .error e)
    (hrl : e.isWorkOSRateLimit = false) :
    (Call.listUsers u.email.toLower ∈ (findOrCreateUser env u).2) ∧
    (∀ w, env.listUsersRes u.email.toLower = .ok [w] →
      env.updateUserRes w.id = .ok () →
      (findOrCreateUser env u).1 = .ok ⟨some w, false⟩) ∧
    (∀ l, env.listUsersRes u.email.toLower = .ok l → l.length ≠ 1 →
      (findOrCreateUser env u).1 = .ok ⟨none, false⟩ ∧
      processLine_import env (.ok u) = .ok (false, none)) := by
  have hfind : findOrCreateUser env u =
      ((findOrCreateCatch env u e).1,
        .createUser u.email :: (findOrCreateCatch env u e).2) := by
    unfold findOrCreateUser
    rw [h, hc]
    simp
  refine ⟨?_, ?_, ?_⟩
  · rw [hfind]
    unfold findOrCreateCatch
    rw [hrl]
    simp only [Bool.false_eq_true, if_false]
    cases hl : env.listUsersRes u.email.toLower with
    | error e2 => simp
    | ok matching =>
      match matching with
      | [] => simp
      | [w] =>
        rcases hp : updateUser env u w with ⟨r0, t0⟩
        simp
      | a :: b :: t => simp
  · intro w hl hu
    rw [hfind]
    unfold findOrCreateCatch
    rw [hrl, hl]
    simp [updateUser, hu]
  · intro l hl hlen
    have hsoft : (findOrCreateUser env u).1 = .ok ⟨none, false⟩ := by
      rw [hfind]
      unfold findOrCreateCatch
      rw [hrl, hl]
      match l, hlen with
      | [], _ => simp
      | a :: b :: t, _ => simp
      | [w], hlen => exact absurd rfl hlen
    refine ⟨hsoft, ?_⟩
    unfold processLine_import
    simp [hsoft]

/-- Witness for C5: a record without a target id whose creation fails
non-fatally is recovered through the single email match and updated with
`created = false`. -/
theorem claim_C5_witness :
    truthyStr userC5.workos_user_id = false ∧
    (findOrCreateUser envC5 userC5).1 = .ok ⟨some ⟨"user_w5", true⟩, false⟩ :=
  ⟨rfl,
    (claim_C5 envC5 userC5 (.other "email exists") rfl rfl rfl).2.1
      ⟨"user_w5", true⟩ rfl rfl⟩

/-- Counterexample for C6: in the password worker, a 429 rate-limit
failure of the Auth0 metadata-stamping call is swallowed by the inner
handler — the worker still resolves successfully with the updated WorkOS
user instead of propagating the rate-limit failure. -/
theorem claim_C6_counterexample :
    (Err.managementApi 429).isRateLimitSignal = true ∧
    updateUserPassword envC6p userC6p = .ok (some ⟨"user_w9", true⟩) :=
  ⟨rfl, rfl⟩

/-- C6 (amended): rate-limit failures propagate unchanged out of every
step of the workers — the fetch, update, create, email-search and
fallback-update steps of `findOrCreateUser`, the metadata update of
`processLine`, and the search and password-update steps of
`updateUserPassword`, whose own handlers absorb only non-rate-limit
failures — EXCEPT the Auth0 metadata-stamping step inside
`updateUserPassword`, whose inner handler swallows every failure of that
call, rate-limit included (see the counterexample). -/
theorem claim_C6 :
    (∀ (env : WorkOSEnv) (u : Auth0ExportedUser) (e : Err),
      e.isWorkOSRateLimit = true →
      (truthyStr u.workos_user_id = true →
        env.getUserRes (u.workos_user_id.getD "") = .error e →
        (findOrCreateUser env u).1 = .error e) ∧
      (truthyStr u.workos_user_id = true →
        ∀ w, env.getUserRes (u.workos_user_id.getD "") = .ok w →
        env.updateUserRes w.id = .error e →
        (findOrCreateUser env u).1 = .error e) ∧
      (truthyStr u.workos_user_id = false →
        env.createUserRes u.email = .error e →
        (findOrCreateUser env u).1 = .error e) ∧
      (truthyStr u.workos_user_id = false →
        ∀ e1, env.createUserRes u.email = .error e1 →
        e1.isWorkOSRateLimit = false →
        env.listUsersRes u.email.toLower = .error e →
        (findOrCreateUser env u).1 = .error e) ∧
      (truthyStr u.workos_user_id = false →
        ∀ e1 w, env.createUserRes u.email = .error e1 →
        e1.isWorkOSRateLimit = false →
        env.listUsersRes u.email.toLower = .ok [w] →
        env.updateUserRes w.id = .error e →
        (findOrCreateUser env u).1 = .error e)) ∧
    (∀ (envU : Auth0UpdateEnv) (line : LedgerLine) (e : Err),
      envU.updateRes line.auth0_user_id = .error e →
      (e.isAuth0RateLimit = true → processLine_update envU line = .error e) ∧
      (e.isAuth0RateLimit = false → processLine_update envU line = .ok false)) ∧
    (∀ (envP : PasswordEnv) (p : PasswordExportedUser) (e : Err),
      e.isWorkOSRateLimit = true →
      (envP.listUsersRes p.email.toLower = .error e →
        updateUserPassword envP p = .error e) ∧
      (∀ m, envP.listUsersRes p.email.toLower = .ok [m] →
        envP.updateWorkOSRes m.id = .error e →
        updateUserPassword envP p = .error e) ∧
      (∀ e2, updateUserPassword envP p = .error e2 →
        e2.isWorkOSRateLimit = true)) := by
  refine ⟨fun env u e he => ⟨?_, ?_, ?_, ?_, ?_⟩, fun envU line e hu => ⟨?_, ?_⟩,
    fun envP p e he => ⟨?_, ?_, ?_⟩⟩
  · intro ht hg
    simp [findOrCreateUser, ht, hg, findOrCreateCatch, he]
  · intro ht w hg hw
    simp [findOrCreateUser, ht, hg, updateUser, hw]
  · intro ht hc
    simp [findOrCreateUser, ht, hc, findOrCreateCatch, he]
  · intro ht e1 hc h1 hl
    simp [findOrCreateUser, ht, hc, findOrCreateCatch, h1, hl]
  · intro ht e1 w hc h1 hl hw
    simp [findOrCreateUser, ht, hc, findOrCreateCatch, h1, hl, updateUser, hw]
  · intro hrl
    simp [processLine_update, hu, hrl]
  · intro hrl
    simp [processLine_update, hu, hrl]
  · intro hl
    simp [updateUserPassword, hl, he]
  · intro m hl hm
    simp [updateUserPassword, hl, hm, he]
  · intro e2 hres
    unfold updateUserPassword at hres
    cases hl : envP.listUsersRes p.email.toLower with
    | error e0 =>
      simp only [hl] at hres
      by_cases h0 : e0.isWorkOSRateLimit = true
      · simp only [h0, if_true] at hres
        cases hres
        exact h0
      · simp [h0] at hres
    | ok matching =>
      rcases matching with _ | ⟨m, _ | ⟨b, t⟩⟩
      · simp [hl] at hres
      · simp only [hl] at hres
        cases hm : envP.updateWorkOSRes m.id with
        | error e0 =>
          simp only [hm] at hres
          by_cases h0 : e0.isWorkOSRateLimit = true
          · simp only [h0, if_true] at hres
            cases hres
            exact h0
          · simp [h0] at hres
        | ok w =>
          simp only [hm] at hres
          cases ha : envP.auth0UpdateRes ("auth0|" ++ p._id) <;>
            simp [ha] at hres
      · simp [hl] at hres

/-- Witness for C6: a 429 from the Auth0 metadata update propagates out of
`processLine` of the metadata-update script. -/
theorem claim_C6_witness :
    envC6u.updateRes lineC6.auth0_user_id = .error (.managementApi 429) ∧
    processLine_update envC6u lineC6 = .error (.managementApi 429) :=
  ⟨rfl, (claim_C6.2.1 envC6u lineC6 (.managementApi 429) rfl).1 rfl⟩

/-- Helper: membership is preserved by comparator insertion. -/
theorem mem_insertCmp {α : Type _} (cmp : α → α → Int) (x z : α) :
    ∀ l : List α, z ∈ insertCmp cmp x l ↔ z = x ∨ z ∈ l := by
  intro l
  induction l with
  | nil => simp [insertCmp]
  | cons y ys ih =>
    simp only [insertCmp]
    split
    · simp [List.mem_cons]
    · simp only [List.mem_cons, ih]
      tauto

/-- Helper: comparator insertion grows the length by one. -/
theorem length_insertCmp {α : Type _} (cmp : α → α → Int) (x : α) :
    ∀ l : List α, (insertCmp cmp x l).length = l.length + 1 := by
  intro l
  induction l with
  | nil => rfl
  | cons y ys ih =>
    simp only [insertCmp]
    split <;> simp [ih]

/-- Helper: the comparator sort preserves membership. -/
theorem mem_sortCmp {α : Type _} (cmp : α → α → Int) (z : α) :
    ∀ l : List α, z ∈ sortCmp cmp l ↔ z ∈ l := by
  intro l
  induction l with
  | nil => simp [sortCmp]
  | cons y ys ih => simp [sortCmp, mem_insertCmp, ih]

/-- Helper: the comparator sort preserves length. -/
theorem length_sortCmp {α : Type _} (cmp : α → α → Int) :
    ∀ l : List α, (sortCmp cmp l).length = l.length := by
  intro l
  induction l with
  | nil => rfl
  | cons y ys ih => simp [sortCmp, length_insertCmp, ih]

/-- Helper: if a score function is antitone in the comparator (a smaller
comparator value means a no-smaller score), the head of the sorted list
carries a maximal score. -/
theorem sortCmp_head_max {α : Type _} (cmp : α → α → Int) (f : α → Nat)
    (h1 : ∀ x y, cmp x y ≤ 0 → f y ≤ f x)
    (h2 : ∀ x y, 0 < cmp x y → f x ≤ f y) :
    ∀ (l : List α) (hd : α) (tl : List α),
      sortCmp cmp l = hd :: tl → ∀ z ∈ l, f z ≤ f hd := by
  intro l
  induction l with
  | nil => intro hd tl h; cases h
  | cons x xs ih =>
    intro hd tl hsort z hz
    rw [sortCmp] at hsort
    cases hxs : sortCmp cmp xs with
    | nil =>
      have hlen : xs.length = 0 := by
        have := length_sortCmp cmp xs
        rw [hxs] at this
        simpa using this.symm
      have hxsnil : xs = [] := List.length_eq_zero.mp hlen
      subst hxsnil
      rw [hxs] at hsort
      simp only [insertCmp] at hsort
      rw [List.cons.injEq] at hsort
      obtain ⟨rfl, rfl⟩ := hsort
      have : z = x := by simpa using hz
      subst this
      exact Nat.le_refl _
    | cons h0 t0 =>
      rw [hxs] at hsort
      simp only [insertCmp] at hsort
      by_cases hc : cmp x h0 ≤ 0
      · rw [if_pos hc, List.cons.injEq] at hsort
        obtain ⟨rfl, rfl⟩ := hsort
        rcases List.mem_cons.mp hz with rfl | hzx
        · exact Nat.le_refl _
        · exact Nat.le_trans (ih h0 t0 hxs z hzx) (h1 x h0 hc)
      · rw [if_neg hc, List.cons.injEq] at hsort
        obtain ⟨rfl, rfl⟩ := hsort
        rcases List.mem_cons.mp hz with rfl | hzx
        · exact h2 z h0 (by omega)
        · exact ih h0 t0 hxs z hzx

/-- Helper: the survivor comparator is compatible with the login-count
score, first component. -/
theorem cmpSurvivors_le_zero (x y : DuplicateUser × Auth0User)
    (h : cmpSurvivors x y ≤ 0) : loginsOrZero y.2 ≤ loginsOrZero x.2 := by
  simp only [cmpSurvivors] at h
  split at h <;> omega

/-- Helper: the survivor comparator is compatible with the login-count
score, second component. -/
theorem cmpSurvivors_pos (x y : DuplicateUser × Auth0User)
    (h : 0 < cmpSurvivors x y) : loginsOrZero x.2 ≤ loginsOrZero y.2 := by
  simp only [cmpSurvivors] at h
  split at h <;> omega

/-- Helper: a member of the survivors list has a truthy `auth0Sub` that is
present in the authoritative map. -/
theorem mem_existingUsers (d : List DuplicateUser) (A : List Auth0User)
    (u : DuplicateUser) (h : u ∈ existingUsers d A) :
    truthyStr u.auth0Sub = true ∧ (mapGet A (u.auth0Sub.getD "")).isSome = true := by
  have := (List.mem_filter.mp h).2
  simpa [Bool.and_eq_true] using this

/-- C7: the decision policy by survivor count — zero survivors yield
`skip` with the all-deleted-upstream reason; exactly one yields `keep`
with that survivor as chosen candidate and its (present) authoritative
record attached; two or more yield `manual_review` with
`requiresManualReview` set and a suggested candidate and record still
computed. -/
theorem claim_C7 (query : Except Err (List Auth0User)) (email : String)
    (duplicates : List DuplicateUser) :
    (existingUsers duplicates (getAuth0UsersByEmail query) = [] →
      (processEmailGroup query email duplicates).action = .skip ∧
      (processEmailGroup query email duplicates).reason =
        "All users deleted from Auth0" ∧
      (processEmailGroup query email duplicates).userToKeep = none) ∧
    (∀ u, existingUsers duplicates (getAuth0UsersByEmail query) = [u] →
      (processEmailGroup query email duplicates).action = .keep ∧
      (processEmailGroup query email duplicates).userToKeep = some u ∧
      (processEmailGroup query email duplicates).auth0User =
        mapGet (getAuth0UsersByEmail query) (u.auth0Sub.getD "") ∧
      ((processEmailGroup query email duplicates).auth0User).isSome = true ∧
      (processEmailGroup query email duplicates).reason =
        "Single user exists in Auth0") ∧
    (2 ≤ (existingUsers duplicates (getAuth0UsersByEmail query)).length →
      (processEmailGroup query email duplicates).action = .manual_review ∧
      (processEmailGroup query email duplicates).requiresManualReview = some true ∧
      ((processEmailGroup query email duplicates).userToKeep).isSome = true ∧
      ((processEmailGroup query email duplicates).auth0User).isSome = true) := by
  refine ⟨?_, ?_, ?_⟩
  · intro h
    simp [processEmailGroup, processDuplicateUsers, h]
  · intro u h
    have hmem : u ∈ existingUsers duplicates (getAuth0UsersByEmail query) := by
      rw [h]; exact List.mem_singleton.mpr rfl
    obtain ⟨-, hsome⟩ := mem_existingUsers _ _ u hmem
    simp [processEmailGroup, processDuplicateUsers, h, hsome]
  · intro hlen
    rcases hes : existingUsers duplicates (getAuth0UsersByEmail query) with
      _ | ⟨e1, _ | ⟨e2, rest⟩⟩
    · rw [hes] at hlen; simp at hlen
    · rw [hes] at hlen; simp at hlen
    · have hplen :
        (sortCmp cmpSurvivors
          ((e1 :: e2 :: rest).map (survivorData (getAuth0UsersByEmail query)))).length
          = rest.length + 2 := by
        rw [length_sortCmp]
        simp
      cases hs : sortCmp cmpSurvivors
          ((e1 :: e2 :: rest).map (survivorData (getAuth0UsersByEmail query))) with
      | nil => rw [hs] at hplen; simp at hplen
      | cons hd tl =>
        simp only [List.map_cons] at hs
        simp [processEmailGroup, processDuplicateUsers, hes, hs]

/-- Witness for C7: a concrete group for each branch — `dupGone` has no
survivor (skip), `dupSolo` is a lone survivor (keep), and the
`dupA2`/`dupB2` pair requires manual review. -/
theorem claim_C7_witness :
    (processEmailGroup (.ok []) "c@x.com" [dupGone]).action = .skip ∧
    (processEmailGroup (.ok [authSolo]) "d@x.com" [dupSolo]).action = .keep ∧
    (processEmailGroup (.ok [authSolo]) "d@x.com" [dupSolo]).userToKeep = some dupSolo ∧
    (processEmailGroup (.ok [authA2, authB2]) "a@x.com" [dupA2, dupB2]).action =
      .manual_review := by
  refine ⟨((claim_C7 (.ok []) "c@x.com" [dupGone]).1 (by decide)).1, ?_, ?_, ?_⟩
  · exact ((claim_C7 (.ok [authSolo]) "d@x.com" [dupSolo]).2.1 dupSolo (by decide)).1
  · exact ((claim_C7 (.ok [authSolo]) "d@x.com" [dupSolo]).2.1 dupSolo (by decide)).2.1
  · exact ((claim_C7 (.ok [authA2, authB2]) "a@x.com" [dupA2, dupB2]).2.2 (by decide)).1

/-- Counterexample for C2: `dupA2` and `dupB2` survive with equal login
counts; `dupA2`'s authoritative record has NO last-active timestamp while
`dupB2`'s has one, yet the comparator returns 0 for the pair (it only
compares timestamps when both are present), so input order is kept and the
timestamp-less `dupA2` becomes `chosenCandidate`, outranking `dupB2`. -/
theorem claim_C2_counterexample :
    (processDuplicateUsers [dupA2, dupB2] [authA2, authB2]).userToKeep =
      some dupA2 ∧
    mapGet [authA2, authB2] (dupA2.auth0Sub.getD "") = some authA2 ∧
    mapGet [authA2, authB2] (dupB2.auth0Sub.getD "") = some authB2 ∧
    authA2.last_login = none ∧
    authB2.last_login = some 100 ∧
    loginsOrZero authA2 = loginsOrZero authB2 := by
  refine ⟨?_, ?_, ?_, rfl, rfl, rfl⟩ <;> rfl

/-- C2 (amended): with two or more survivors the suggested candidate is a
survivor of maximal authoritative login count (missing counted as 0); the
descending last-active tie-break applies only when BOTH compared records
carry a timestamp — a pair tied on login count in which either record
lacks a timestamp compares equal and retains input order, so a survivor
without a timestamp can outrank one with a timestamp (see the
counterexample); for a two-survivor group the choice is exactly the first
survivor when the comparator is ≤ 0 on the pair and the second otherwise. -/
theorem claim_C2 (duplicates : List DuplicateUser) (auth0Users : List Auth0User)
    (hlen : 2 ≤ (existingUsers duplicates auth0Users).length) :
    ∃ c, (processDuplicateUsers duplicates auth0Users).userToKeep = some c ∧
      c ∈ existingUsers duplicates auth0Users ∧
      (processDuplicateUsers duplicates auth0Users).auth0User =
        some (survivorData auth0Users c).2 ∧
      (∀ y ∈ existingUsers duplicates auth0Users,
        loginsOrZero (survivorData auth0Users y).2 ≤
          loginsOrZero (survivorData auth0Users c).2) ∧
      (∀ a b, existingUsers duplicates auth0Users = [a, b] →
        c = if cmpSurvivors (survivorData auth0Users a)
              (survivorData auth0Users b) ≤ 0 then a else b) := by
  rcases hes : existingUsers duplicates auth0Users with _ | ⟨e1, _ | ⟨e2, rest⟩⟩
  · rw [hes] at hlen; simp at hlen
  · rw [hes] at hlen; simp at hlen
  · have hplen :
      (sortCmp cmpSurvivors
        ((e1 :: e2 :: rest).map (survivorData auth0Users))).length
        = rest.length + 2 := by
      rw [length_sortCmp]; simp
    cases hs : sortCmp cmpSurvivors
        ((e1 :: e2 :: rest).map (survivorData auth0Users)) with
    | nil => rw [hs] at hplen; simp at hplen
    | cons hd tl =>
      have hdmem : hd ∈ (e1 :: e2 :: rest).map (survivorData auth0Users) := by
        rw [← mem_sortCmp cmpSurvivors hd, hs]
        exact List.mem_cons_self hd tl
      obtain ⟨u, hu, hdu⟩ := List.mem_map.mp hdmem
      have hd1 : hd.1 = u := by rw [← hdu]; rfl
      have hdform : hd = survivorData auth0Users hd.1 := by
        rw [hd1, ← hdu]
      refine ⟨hd.1, ?_, ?_, ?_, ?_, ?_⟩
      · simp only [List.map_cons] at hs
        simp [processDuplicateUsers, hes, hs]
      · rw [hd1]; exact hu
      · simp only [List.map_cons] at hs
        simp [processDuplicateUsers, hes, hs, ← hdform]
      · intro y hy
        have hym : survivorData auth0Users y ∈
            (e1 :: e2 :: rest).map (survivorData auth0Users) :=
          List.mem_map.mpr ⟨y, hy, rfl⟩
        have := sortCmp_head_max cmpSurvivors (fun p => loginsOrZero p.2)
          (fun x y h => cmpSurvivors_le_zero x y h)
          (fun x y h => cmpSurvivors_pos x y h)
          ((e1 :: e2 :: rest).map (survivorData auth0Users)) hd tl hs
          (survivorData auth0Users y) hym
        rw [← hdform]
        exact this
      · intro a b hab
        rw [List.cons.injEq, List.cons.injEq] at hab
        obtain ⟨h1, h2, h3⟩ := hab
        subst h1
        subst h2
        subst h3
        simp only [List.map_cons, List.map_nil, sortCmp, insertCmp] at hs
        by_cases hc : cmpSurvivors (survivorData auth0Users e1)
            (survivorData auth0Users e2) ≤ 0
        · rw [if_pos hc, List.cons.injEq] at hs
          rw [if_pos hc, ← hs.1]
          rfl
        · rw [if_neg hc, List.cons.injEq] at hs
          rw [if_neg hc, ← hs.1]
          rfl

/-- Witness for C2: the amended theorem applied to the concrete
two-survivor group of the counterexample — the suggested candidate
exists. -/
theorem claim_C2_witness :
    2 ≤ (existingUsers [dupA2, dupB2] [authA2, authB2]).length ∧
    ((processDuplicateUsers [dupA2, dupB2] [authA2, authB2]).userToKeep).isSome
      = true := by
  refine ⟨by decide, ?_⟩
  obtain ⟨c, hc, -, -, -, -⟩ := claim_C2 [dupA2, dupB2] [authA2, authB2] (by decide)
  simp [hc]

/-- Counterexample for C10: with a record carrying a target id, a
successful fetch and a non-rate-limit failure of the update call, the
worker does NOT fall back to the email search (no `listUsers` call is
made, although the search would have found exactly one updatable user) —
the update failure propagates out, because `return updateUser(...)` is not
awaited inside the `try` block. -/
theorem claim_C10_counterexample :
    (Err.other "boom").isWorkOSRateLimit = false ∧
    envC10.listUsersRes "c@x.com" = .ok [⟨"user_w3", true⟩] ∧
    (findOrCreateUser envC10 userC10).1 = .error (.other "boom") ∧
    Call.listUsers "c@x.com" ∉ (findOrCreateUser envC10 userC10).2 := by
  refine ⟨rfl, rfl, rfl, by decide⟩

/-- C10 (amended): on the update path, a non-rate-limit failure of the
FETCH falls through to the lowercased-email search fallback (one match →
update with `created = false`, zero or several matches → soft failure);
but a non-rate-limit failure of the UPDATE call itself is returned without
being awaited, bypasses the `catch`, and propagates out of the worker with
no email search performed. -/
theorem claim_C10 (env : WorkOSEnv) (u : Auth0ExportedUser) (e : Err)
    (ht : truthyStr u.workos_user_id = true)
    (hrl : e.isWorkOSRateLimit = false) :
    (env.getUserRes (u.workos_user_id.getD "") = .error e →
      (Call.listUsers u.email.toLower ∈ (findOrCreateUser env u).2) ∧
      (∀ w, env.listUsersRes u.email.toLower = .ok [w] →
        env.updateUserRes w.id = .ok () →
        (findOrCreateUser env u).1 = .ok ⟨some w, false⟩) ∧
      (∀ l, env.listUsersRes u.email.toLower = .ok l → l.length ≠ 1 →
        (findOrCreateUser env u).1 = .ok ⟨none, false⟩)) ∧
    (∀ w, env.getUserRes (u.workos_user_id.getD "") = .ok w →
      env.updateUserRes w.id = .error e →
      (findOrCreateUser env u).1 = .error e ∧
      Call.listUsers u.email.toLower ∉ (findOrCreateUser env u).2) := by
  constructor
  · intro hg
    have hfind : findOrCreateUser env u =
        ((findOrCreateCatch env u e).1,
          .getUser (u.workos_user_id.getD "") :: (findOrCreateCatch env u e).2) := by
      unfold findOrCreateUser
      rw [ht]
      simp [hg]
    refine ⟨?_, ?_, ?_⟩
    · rw [hfind]
      unfold findOrCreateCatch
      rw [hrl]
      simp only [Bool.false_eq_true, if_false]
      cases hl : env.listUsersRes u.email.toLower with
      | error e2 => simp
      | ok matching =>
        match matching with
        | [] => simp
        | [w] =>
          rcases hp : updateUser env u w with ⟨r0, t0⟩
          simp
        | a :: b :: t => simp
    · intro w hl hu
      rw [hfind]
      unfold findOrCreateCatch
      rw [hrl, hl]
      simp [updateUser, hu]
    · intro l hl hlen
      rw [hfind]
      unfold findOrCreateCatch
      rw [hrl, hl]
      match l, hlen with
      | [], _ => simp
      | a :: b :: t, _ => simp
      | [w], hlen => exact absurd rfl hlen
  · intro w hg hw
    have hfind : findOrCreateUser env u =
        (.error e,
          [.getUser (u.workos_user_id.getD ""),
            .update w.id (mergedEmailVerified u w)]) := by
      unfold findOrCreateUser
      rw [ht]
      simp [hg, updateUser, hw]
    rw [hfind]
    simp

/-- Witness for C10: a record with a target id whose fetch fails
non-fatally is recovered through the single email match and updated with
`created = false`. -/
theorem claim_C10_witness :
    truthyStr userC10.workos_user_id = true ∧
    (findOrCreateUser envC10w userC10).1 = .ok ⟨some ⟨"user_w3", true⟩, false⟩ :=
  ⟨by decide,
    ((claim_C10 envC10w userC10 (.other "gone") (by decide) rfl).1 rfl).2.1
      ⟨"user_w3", true⟩ rfl rfl⟩

end Migration
